import Mathlib

/-!
Verification of the heart-transplant matching engine
(`src/HeartTransplantMatcher.jsx`).

The JavaScript source is embedded shallowly:
* `Math.pow` on doubles is modelled as real `rpow`, so the PHM
  calculator lives over `ℝ`;
* the classifiers and the sort comparator are linear-order step
  functions, modelled polymorphically over any `LinearOrderedField`
  so that they can be run exactly on `ℚ` and reasoned about on `ℝ`;
* JS strings are `String`, an absent (`undefined`) field is `none`,
  and JS string falsiness (`!s` is true for `''`) is modelled
  explicitly where the source relies on it;
* the one `try/catch` of `handleCalculateMatches` becomes `Except`:
  an exception anywhere inside the block aborts the whole run.
-/

namespace HeartMatcher

/-- The eight literal blood types of the donor form (`bloodTypes` in the source). -/
def bloodTypes : List String := ["A+", "A-", "B+", "B-", "AB+", "AB-", "O+", "O-"]

/-- The `bloodTypeCompatibility` chart from the source: recipient type ↦ list of
donor types it can receive from.  A key outside the eight literals yields `none`
(the JS object lookup gives `undefined`). -/
def bloodTypeCompatibility (recipient : String) : Option (List String) :=
  if recipient = "A+" then some ["A+", "A-", "O+", "O-"]
  else if recipient = "A-" then some ["A-", "O-"]
  else if recipient = "B+" then some ["B+", "B-", "O+", "O-"]
  else if recipient = "B-" then some ["B-", "O-"]
  else if recipient = "AB+" then some ["A+", "A-", "B+", "B-", "AB+", "AB-", "O+", "O-"]
  else if recipient = "AB-" then some ["A-", "B-", "AB-", "O-"]
  else if recipient = "O+" then some ["O+", "O-"]
  else if recipient = "O-" then some ["O-"]
  else none

/-- `isBloodTypeCompatible` from the source.  `none` models an absent
(`undefined`) argument; `some ""` models the empty string.  Both are falsy in
JS, so either short-circuits to `false`; otherwise the chart is consulted and a
missing row (`?.includes` on `undefined`) degrades to `false`. -/
def isBloodTypeCompatible (donorBloodType recipientBloodType : Option String) : Bool :=
  match donorBloodType, recipientBloodType with
  | some d, some r =>
    if d = "" || r = "" then false
    else
      match bloodTypeCompatibility r with
      | some donors => donors.contains d
      | none => false
  | _, _ => false

/-- `determineMatchCategory` from the source: the seven septile bands. -/
def determineMatchCategory {α : Type} [LinearOrderedField α] (phmRat : α) : String :=
  if phmRat < 0.863 then "U3 - Severely Undersized"
  else if phmRat < 0.929 then "U2 - Moderately Undersized"
  else if phmRat < 0.983 then "U1 - Mildly Undersized"
  else if phmRat < 1.039 then "R - Well-Matched"
  else if phmRat < 1.111 then "O1 - Mildly Oversized"
  else if phmRat < 1.221 then "O2 - Moderately Oversized"
  else "O3 - Severely Oversized"

/-- `determineRiskLevel` from the source. -/
def determineRiskLevel {α : Type} [LinearOrderedField α] (phmRat : α) : String :=
  if phmRat < 0.86 then "High Risk" else "Acceptable"

/-- JS `String.prototype.toLowerCase` (character-wise lowering, which is all
the source relies on for its ASCII gender strings). -/
def jsToLower (s : String) : String := String.mk (s.data.map Char.toLower)

/-- `calculatePHM` from the source, over exact reals (`Math.pow` is real
`rpow`).  Heights above 3 are treated as centimetres and divided by 100; the
female coefficients are chosen when the lower-cased gender is `"female"` and
the male coefficients in every other case; no validation is performed. -/
noncomputable def calculatePHM (gender : String) (age height weight : ℝ) : ℝ :=
  let heightInM : ℝ := if height > 3 then height / 100 else height
  let lvmCoefficient : ℝ := if jsToLower gender = "female" then 6.82 else 8.25
  let lvm := lvmCoefficient * heightInM ^ (0.54 : ℝ) * weight ^ (0.61 : ℝ)
  let rvmCoefficient : ℝ := if jsToLower gender = "female" then 10.59 else 11.25
  let rvm := rvmCoefficient * age ^ (-0.32 : ℝ) * heightInM ^ (1.135 : ℝ) * weight ^ (0.315 : ℝ)
  rvm + lvm

/-- The four fields of a match record that the sort comparator of
`handleCalculateMatches` reads.  `α` carries the PHM ratio: `ℝ` in the
pipeline, `ℚ` where exact evaluation is wanted. -/
structure MatchRec (α : Type) where
  bloodTypeMatch : Bool
  exactBloodTypeMatch : Bool
  riskLevel : String
  phmRatioVal : α
deriving DecidableEq

/-- The sort comparator of `handleCalculateMatches`: blood-type compatibility,
then exact blood-type match, then risk level, then proximity of the PHM ratio
to 1.0, each consulted only on a tie of the previous stage. -/
def matchCompare {α : Type} [LinearOrderedField α] (a b : MatchRec α) : α :=
  if a.bloodTypeMatch ≠ b.bloodTypeMatch then
    if a.bloodTypeMatch then -1 else 1
  else if a.exactBloodTypeMatch ≠ b.exactBloodTypeMatch then
    if a.exactBloodTypeMatch then -1 else 1
  else if a.riskLevel ≠ b.riskLevel then
    if a.riskLevel = "Acceptable" then -1 else 1
  else
    |a.phmRatioVal - 1| - |b.phmRatioVal - 1|

/-- `[...results].sort(comparator)`: JS `Array.prototype.sort` is a stable sort
driven by the sign of the comparator, i.e. a merge sort under
`comparator a b ≤ 0`. -/
def rankMatches {α : Type} [LinearOrderedField α] (results : List (MatchRec α)) :
    List (MatchRec α) :=
  results.mergeSort fun a b => decide (matchCompare a b ≤ 0)

/-- A recipient row as it reaches `handleCalculateMatches`: numeric fields
already parsed, `gender` and `bloodType` possibly absent (`undefined` in JS,
modelled as `none`). -/
structure Recipient where
  id : String
  name : String
  gender : Option String
  age : ℚ
  height : ℚ
  weight : ℚ
  bloodType : Option String

/-- The donor after the form validation that precedes any computation in
`handleCalculateMatches`: every field present and numeric. -/
structure Donor where
  name : String
  gender : String
  age : ℚ
  height : ℚ
  weight : ℚ
  bloodType : String

/-- One enriched match record as built inside `handleCalculateMatches`;
`keys` bundles the four fields the comparator reads. -/
structure ResultRec where
  recip : Recipient
  donorPHM : ℝ
  recipientPHM : ℝ
  matchCategory : String
  keys : MatchRec ℝ

/-- The body of the `recipients.map` call in `handleCalculateMatches`.
Reading `.toLowerCase()` of an absent gender throws a `TypeError` in JS;
the surrounding `try/catch` is modelled by `Except`. -/
noncomputable def buildResult (donor : Donor) (donorPHM : ℝ) (recipient : Recipient) :
    Except String ResultRec :=
  match recipient.gender with
  | none => .error "TypeError: recipient gender is undefined"
  | some g =>
    let recipientPHM :=
      calculatePHM g (recipient.age : ℝ) (recipient.height : ℝ) (recipient.weight : ℝ)
    let phmRat := donorPHM / recipientPHM
    .ok { recip := recipient
          donorPHM := donorPHM
          recipientPHM := recipientPHM
          matchCategory := determineMatchCategory phmRat
          keys :=
            { bloodTypeMatch := isBloodTypeCompatible (some donor.bloodType) recipient.bloodType
              exactBloodTypeMatch := recipient.bloodType == some donor.bloodType
              riskLevel := determineRiskLevel phmRat
              phmRatioVal := phmRat } }

/-- The `recipients.map` call of `handleCalculateMatches`: records are built
left to right and the first exception escapes the map. -/
noncomputable def buildAll (donor : Donor) (dPHM : ℝ) :
    List Recipient → Except String (List ResultRec)
  | [] => .ok []
  | r :: rs => do
    let x ← buildResult donor dPHM r
    let xs ← buildAll donor dPHM rs
    return x :: xs

/-- `handleCalculateMatches` after donor validation: one `try` block that
computes the donor PHM once, maps over every recipient, and sorts.  An
exception thrown anywhere in the block is caught at the run level and aborts
the whole run, yielding no results. -/
noncomputable def handleCalculateMatches (donor : Donor) (recipients : List Recipient) :
    Except String (List ResultRec) := do
  let donorPHM :=
    calculatePHM donor.gender (donor.age : ℝ) (donor.height : ℝ) (donor.weight : ℝ)
  let results ← buildAll donor donorPHM recipients
  return results.mergeSort fun a b => decide (matchCompare a.keys b.keys ≤ 0)

/-- Modelled from the spec: the ABO group of a literal blood type (the type
without its trailing Rhesus sign). -/
def specABOGroup (t : String) : String := String.mk t.data.dropLast

/-- Modelled from the spec: the blood type's Rhesus sign is `−`. -/
def specRhNeg (t : String) : Bool := t.data.getLast? == some '-'

/-- Modelled from the spec: the blood type's Rhesus sign is `+`. -/
def specRhPos (t : String) : Bool := t.data.getLast? == some '+'

/-- Modelled from the spec: the donor ABO group is transfusable into the
recipient ABO group under the standard subset rule (`O` into `A`, `B`, `AB`;
`A` into `AB`; `B` into `AB`; every group into itself). -/
def specABOTransfusable (d r : String) : Bool := d == "O" || d == r || r == "AB"

/-- Modelled from the spec: full-chart compatibility — the ABO subset rule
holds and the donor is Rh− or the recipient is Rh+. -/
def specCompatible (d r : String) : Bool :=
  specABOTransfusable (specABOGroup d) (specABOGroup r) && (specRhNeg d || specRhPos r)

/-- The PHM contract as the spec states it for `computePHM`: `none` (an
`InvalidInput` failure) when age, height or weight is non-positive or the
gender is neither `"male"` nor `"female"` case-insensitively; otherwise the
formula value.  Stated only for comparison with `calculatePHM`, which is what
the source actually runs. -/
noncomputable def specComputePHM (gender : String) (age height weight : ℝ) : Option ℝ :=
  if age ≤ 0 ∨ height ≤ 0 ∨ weight ≤ 0 ∨
      (jsToLower gender ≠ "male" ∧ jsToLower gender ≠ "female") then none
  else some (calculatePHM gender age height weight)

/-- C3: `determineMatchCategory` is total and its seven bands partition the
ratios with no gaps or overlaps at the boundaries 0.863, 0.929, 0.983, 1.039,
1.111, 1.221, each boundary value belonging to the upper band; in particular
0.983 classifies as `R` and 0.9829999 as `U1`. -/
theorem determineMatchCategory_partitions (r : ℚ) :
    (determineMatchCategory r = "U3 - Severely Undersized" ↔ r < 0.863) ∧
    (determineMatchCategory r = "U2 - Moderately Undersized" ↔ 0.863 ≤ r ∧ r < 0.929) ∧
    (determineMatchCategory r = "U1 - Mildly Undersized" ↔ 0.929 ≤ r ∧ r < 0.983) ∧
    (determineMatchCategory r = "R - Well-Matched" ↔ 0.983 ≤ r ∧ r < 1.039) ∧
    (determineMatchCategory r = "O1 - Mildly Oversized" ↔ 1.039 ≤ r ∧ r < 1.111) ∧
    (determineMatchCategory r = "O2 - Moderately Oversized" ↔ 1.111 ≤ r ∧ r < 1.221) ∧
    (determineMatchCategory r = "O3 - Severely Oversized" ↔ 1.221 ≤ r) ∧
    determineMatchCategory (0.983 : ℚ) = "R - Well-Matched" ∧
    determineMatchCategory (0.9829999 : ℚ) = "U1 - Mildly Undersized" := by
  refine ⟨?_, ?_, ?_, ?_, ?_, ?_, ?_, ?_, ?_⟩ <;>
    simp only [determineMatchCategory] <;>
    split_ifs <;> (try simp_all) <;> (try constructor) <;> intros <;> linarith

/-- C4: `determineRiskLevel` returns `High Risk` exactly for ratios below 0.86
and `Acceptable` from 0.86 upwards — 0.86 itself is Acceptable, 0.8599 is
High Risk — while 0.86 still classifies in category `U3`, so the 0.86 risk
threshold is a boundary of its own, independent of the 0.863 category
boundary. -/
theorem determineRiskLevel_threshold (r : ℚ) :
    (determineRiskLevel r = "High Risk" ↔ r < 0.86) ∧
    (determineRiskLevel r = "Acceptable" ↔ 0.86 ≤ r) ∧
    determineRiskLevel (0.86 : ℚ) = "Acceptable" ∧
    determineRiskLevel (0.8599 : ℚ) = "High Risk" ∧
    determineMatchCategory (0.86 : ℚ) = "U3 - Severely Undersized" := by
  refine ⟨?_, ?_, ?_, ?_, ?_⟩ <;>
    simp only [determineRiskLevel, determineMatchCategory] <;>
    split_ifs <;> (try simp_all) <;> (try constructor) <;> intros <;> linarith

/-- C2: for positive age, height and weight, `calculatePHM` returns
`LVM + RVM` with `LVM = Clvm · height_m^0.54 · weight^0.61` and
`RVM = Crvm · age^(−0.32) · height_m^1.135 · weight^0.315`, where the
coefficients are 6.82/10.59 when the lower-cased gender is `"female"` and
8.25/11.25 otherwise, and `height_m` is `height/100` exactly when the supplied
height exceeds 3. -/
theorem calculatePHM_eq_formula (gender : String) (age height weight : ℝ)
    (ha : 0 < age) (hh : 0 < height) (hw : 0 < weight) :
    calculatePHM gender age height weight =
      (if jsToLower gender = "female" then (6.82 : ℝ) else 8.25) *
          (if height > 3 then height / 100 else height) ^ (0.54 : ℝ) *
          weight ^ (0.61 : ℝ) +
        (if jsToLower gender = "female" then (10.59 : ℝ) else 11.25) *
          age ^ (-0.32 : ℝ) *
          (if height > 3 then height / 100 else height) ^ (1.135 : ℝ) *
          weight ^ (0.315 : ℝ) := by
  simp only [calculatePHM]
  ring

/-- Witness for C2 at the spec's worked example donor (male, 45y, 180cm, 80kg). -/
theorem calculatePHM_eq_formula_witness :
    (0 : ℝ) < 45 ∧ (0 : ℝ) < 180 ∧ (0 : ℝ) < 80 ∧
      calculatePHM "male" 45 180 80 =
        (if jsToLower "male" = "female" then (6.82 : ℝ) else 8.25) *
            (if (180 : ℝ) > 3 then (180 : ℝ) / 100 else 180) ^ (0.54 : ℝ) *
            (80 : ℝ) ^ (0.61 : ℝ) +
          (if jsToLower "male" = "female" then (10.59 : ℝ) else 11.25) *
            (45 : ℝ) ^ (-0.32 : ℝ) *
            (if (180 : ℝ) > 3 then (180 : ℝ) / 100 else 180) ^ (1.135 : ℝ) *
            (80 : ℝ) ^ (0.315 : ℝ) :=
  ⟨by norm_num, by norm_num, by norm_num,
    calculatePHM_eq_formula "male" 45 180 80 (by norm_num) (by norm_num) (by norm_num)⟩

/-- C6 counterexample: for the unrecognized gender "dragon" (and for a
negative age) the spec's `computePHM` contract demands an `InvalidInput`
failure, but the source's `calculatePHM` does not fail: it silently computes
the male-coefficient value. -/
theorem calculatePHM_no_validation_cex :
    specComputePHM "dragon" 30 180 80 = none ∧
      calculatePHM "dragon" 30 180 80 = calculatePHM "male" 30 180 80 ∧
      specComputePHM "male" (-5) 180 80 = none := by
  refine ⟨?_, ?_, ?_⟩
  · unfold specComputePHM
    rw [if_pos]
    exact Or.inr (Or.inr (Or.inr ⟨by decide, by decide⟩))
  · simp [calculatePHM, (by decide : jsToLower "dragon" = "dragon"),
      (by decide : jsToLower "male" = "male")]
  · unfold specComputePHM
    rw [if_pos]
    exact Or.inl (by norm_num)

/-- C6 amended: `calculatePHM` performs no input validation at all — even when
a biometric field is non-positive or the gender is unrecognized it still
returns the formula value (with male coefficients for any gender whose
lower-cased form is not "female"), instead of failing with `InvalidInput`. -/
theorem calculatePHM_total_no_validation (gender : String) (age height weight : ℝ)
    (h : age ≤ 0 ∨ height ≤ 0 ∨ weight ≤ 0 ∨
        (jsToLower gender ≠ "male" ∧ jsToLower gender ≠ "female")) :
    calculatePHM gender age height weight =
      (if jsToLower gender = "female" then (6.82 : ℝ) else 8.25) *
          (if height > 3 then height / 100 else height) ^ (0.54 : ℝ) *
          weight ^ (0.61 : ℝ) +
        (if jsToLower gender = "female" then (10.59 : ℝ) else 11.25) *
          age ^ (-0.32 : ℝ) *
          (if height > 3 then height / 100 else height) ^ (1.135 : ℝ) *
          weight ^ (0.315 : ℝ) := by
  simp only [calculatePHM]
  ring

/-- Witness for the amended C6, at a negative age. -/
theorem calculatePHM_total_no_validation_witness :
    ((-5 : ℝ) ≤ 0 ∨ (180 : ℝ) ≤ 0 ∨ (80 : ℝ) ≤ 0 ∨
        (jsToLower "male" ≠ "male" ∧ jsToLower "male" ≠ "female")) ∧
      calculatePHM "male" (-5) 180 80 =
        (if jsToLower "male" = "female" then (6.82 : ℝ) else 8.25) *
            (if (180 : ℝ) > 3 then (180 : ℝ) / 100 else 180) ^ (0.54 : ℝ) *
            (80 : ℝ) ^ (0.61 : ℝ) +
          (if jsToLower "male" = "female" then (10.59 : ℝ) else 11.25) *
            (-5 : ℝ) ^ (-0.32 : ℝ) *
            (if (180 : ℝ) > 3 then (180 : ℝ) / 100 else 180) ^ (1.135 : ℝ) *
            (80 : ℝ) ^ (0.315 : ℝ) :=
  ⟨Or.inl (by norm_num),
    calculatePHM_total_no_validation "male" (-5) 180 80 (Or.inl (by norm_num))⟩

/-- C9: for a recognized gender and positive age, height and weight,
`calculatePHM` is strictly positive, and with gender, age and height fixed it
is strictly increasing in weight. -/
theorem calculatePHM_pos_and_strictMono_weight (gender : String) (age height w1 w2 : ℝ)
    (hg : jsToLower gender = "male" ∨ jsToLower gender = "female")
    (ha : 0 < age) (hh : 0 < height) (h1 : 0 < w1) (h12 : w1 < w2) :
    0 < calculatePHM gender age height w1 ∧
      calculatePHM gender age height w1 < calculatePHM gender age height w2 := by
  have hM : (0 : ℝ) < (if height > 3 then height / 100 else height) := by
    split_ifs <;> linarith
  have hc1 : (0 : ℝ) < (if jsToLower gender = "female" then (6.82 : ℝ) else 8.25) := by
    split_ifs <;> norm_num
  have hc2 : (0 : ℝ) < (if jsToLower gender = "female" then (10.59 : ℝ) else 11.25) := by
    split_ifs <;> norm_num
  have hMp : ∀ e : ℝ, (0 : ℝ) < (if height > 3 then height / 100 else height) ^ e :=
    fun e => Real.rpow_pos_of_pos hM e
  have hap : (0 : ℝ) < age ^ (-0.32 : ℝ) := Real.rpow_pos_of_pos ha _
  have hw1a : (0 : ℝ) < w1 ^ (0.61 : ℝ) := Real.rpow_pos_of_pos h1 _
  have hw1b : (0 : ℝ) < w1 ^ (0.315 : ℝ) := Real.rpow_pos_of_pos h1 _
  constructor
  · simp only [calculatePHM]
    have t1 := mul_pos (mul_pos (mul_pos hc2 hap) (hMp 1.135)) hw1b
    have t2 := mul_pos (mul_pos hc1 (hMp 0.54)) hw1a
    linarith
  · simp only [calculatePHM]
    have hlt1 : w1 ^ (0.61 : ℝ) < w2 ^ (0.61 : ℝ) :=
      Real.rpow_lt_rpow h1.le h12 (by norm_num)
    have hlt2 : w1 ^ (0.315 : ℝ) < w2 ^ (0.315 : ℝ) :=
      Real.rpow_lt_rpow h1.le h12 (by norm_num)
    have hfac1 := mul_pos hc1 (hMp 0.54)
    have hfac2 := mul_pos (mul_pos hc2 hap) (hMp 1.135)
    have l1 := mul_lt_mul_of_pos_left hlt1 hfac1
    have l2 := mul_lt_mul_of_pos_left hlt2 hfac2
    calc (if jsToLower gender = "female" then (10.59 : ℝ) else 11.25) *
          age ^ (-0.32 : ℝ) *
          (if height > 3 then height / 100 else height) ^ (1.135 : ℝ) *
          w1 ^ (0.315 : ℝ) +
        (if jsToLower gender = "female" then (6.82 : ℝ) else 8.25) *
          (if height > 3 then height / 100 else height) ^ (0.54 : ℝ) *
          w1 ^ (0.61 : ℝ)
        < (if jsToLower gender = "female" then (10.59 : ℝ) else 11.25) *
            age ^ (-0.32 : ℝ) *
            (if height > 3 then height / 100 else height) ^ (1.135 : ℝ) *
            w2 ^ (0.315 : ℝ) +
          (if jsToLower gender = "female" then (6.82 : ℝ) else 8.25) *
            (if height > 3 then height / 100 else height) ^ (0.54 : ℝ) *
            w2 ^ (0.61 : ℝ) := by
          apply add_lt_add
          · calc _ = (if jsToLower gender = "female" then (10.59 : ℝ) else 11.25) *
                age ^ (-0.32 : ℝ) *
                (if height > 3 then height / 100 else height) ^ (1.135 : ℝ) *
                w1 ^ (0.315 : ℝ) := by ring
              _ < _ := by
                calc ((if jsToLower gender = "female" then (10.59 : ℝ) else 11.25) *
                      age ^ (-0.32 : ℝ) *
                      (if height > 3 then height / 100 else height) ^ (1.135 : ℝ)) *
                      w1 ^ (0.315 : ℝ)
                    < ((if jsToLower gender = "female" then (10.59 : ℝ) else 11.25) *
                      age ^ (-0.32 : ℝ) *
                      (if height > 3 then height / 100 else height) ^ (1.135 : ℝ)) *
                      w2 ^ (0.315 : ℝ) := l2
                  _ = _ := by ring
          · calc _ = ((if jsToLower gender = "female" then (6.82 : ℝ) else 8.25) *
                (if height > 3 then height / 100 else height) ^ (0.54 : ℝ)) *
                w1 ^ (0.61 : ℝ) := by ring
              _ < _ := by
                calc ((if jsToLower gender = "female" then (6.82 : ℝ) else 8.25) *
                      (if height > 3 then height / 100 else height) ^ (0.54 : ℝ)) *
                      w1 ^ (0.61 : ℝ)
                    < ((if jsToLower gender = "female" then (6.82 : ℝ) else 8.25) *
                      (if height > 3 then height / 100 else height) ^ (0.54 : ℝ)) *
                      w2 ^ (0.61 : ℝ) := l1
                  _ = _ := by ring

/-- Witness for C9: a concrete female profile, weights 60kg < 65kg. -/
theorem calculatePHM_pos_and_strictMono_weight_witness :
    (jsToLower "female" = "male" ∨ jsToLower "female" = "female") ∧
      (0 : ℝ) < 50 ∧ (0 : ℝ) < 165 ∧ (0 : ℝ) < 60 ∧ (60 : ℝ) < 65 ∧
      0 < calculatePHM "female" 50 165 60 ∧
      calculatePHM "female" 50 165 60 < calculatePHM "female" 50 165 65 :=
  ⟨Or.inr (by decide), by norm_num, by norm_num, by norm_num, by norm_num,
    (calculatePHM_pos_and_strictMono_weight "female" 50 165 60 65 (Or.inr (by decide))
        (by norm_num) (by norm_num) (by norm_num) (by norm_num)).1,
    (calculatePHM_pos_and_strictMono_weight "female" 50 165 60 65 (Or.inr (by decide))
        (by norm_num) (by norm_num) (by norm_num) (by norm_num)).2⟩

/-- C1: the primary comparator ranks `a` strictly before `b` exactly under the
documented four-stage lexicographic chain: compatible before incompatible; on
a tie, exact match before non-exact; on a tie, Acceptable before High Risk; on
a tie, strictly smaller distance of the PHM ratio from 1.0 — each stage
consulted only when every earlier stage ties. -/
theorem matchCompare_neg_iff (a b : MatchRec ℚ)
    (ha : a.riskLevel = "Acceptable" ∨ a.riskLevel = "High Risk")
    (hb : b.riskLevel = "Acceptable" ∨ b.riskLevel = "High Risk") :
    matchCompare a b < 0 ↔
      ((a.bloodTypeMatch = true ∧ b.bloodTypeMatch = false) ∨
        (a.bloodTypeMatch = b.bloodTypeMatch ∧
          ((a.exactBloodTypeMatch = true ∧ b.exactBloodTypeMatch = false) ∨
            (a.exactBloodTypeMatch = b.exactBloodTypeMatch ∧
              ((a.riskLevel = "Acceptable" ∧ b.riskLevel = "High Risk") ∨
                (a.riskLevel = b.riskLevel ∧
                  |a.phmRatioVal - 1| < |b.phmRatioVal - 1|)))))) := by
  obtain ⟨b1, e1, r1, q1⟩ := a
  obtain ⟨b2, e2, r2, q2⟩ := b
  dsimp only at ha hb ⊢
  rcases ha with h | h <;> rcases hb with h' | h' <;> subst h <;> subst h' <;>
    cases b1 <;> cases b2 <;> cases e1 <;> cases e2 <;>
      simp [matchCompare, sub_neg]

/-- Witness for C1: a compatible Acceptable record is ranked strictly before
an incompatible High-Risk one. -/
theorem matchCompare_neg_iff_witness :
    matchCompare (⟨true, false, "Acceptable", 1⟩ : MatchRec ℚ)
      ⟨false, false, "High Risk", 1⟩ < 0 := by
  have h := matchCompare_neg_iff ⟨true, false, "Acceptable", 1⟩
    ⟨false, false, "High Risk", 1⟩ (Or.inl rfl) (Or.inr rfl)
  rw [h]
  exact Or.inl ⟨rfl, rfl⟩

/-- Every donor list stored in the compatibility chart only mentions the eight
literal blood types. -/
lemma bloodTypeCompatibility_subset {r : String} {l : List String}
    (h : bloodTypeCompatibility r = some l) : ∀ d ∈ l, d ∈ bloodTypes := by
  unfold bloodTypeCompatibility at h
  split_ifs at h <;> (try simp at h) <;> subst h <;> decide

/-- A recipient type outside the eight literals has no row in the chart. -/
lemma bloodTypeCompatibility_unknown {r : String} (h : r ∉ bloodTypes) :
    bloodTypeCompatibility r = none := by
  unfold bloodTypeCompatibility
  split_ifs <;> subst_vars <;> simp_all [bloodTypes]

/-- C5: under the full chart, `isBloodTypeCompatible` never raises and, on the
eight literal types, agrees exactly with the spec's transfusion rule (ABO
subset rule, and donor Rh− or recipient Rh+); any absent or unknown argument
yields `false`, not an error. -/
theorem isBloodTypeCompatible_full_spec :
    (∀ x, isBloodTypeCompatible none x = false) ∧
    (∀ x, isBloodTypeCompatible x none = false) ∧
    (∀ d r, d ∉ bloodTypes → isBloodTypeCompatible (some d) (some r) = false) ∧
    (∀ d r, r ∉ bloodTypes → isBloodTypeCompatible (some d) (some r) = false) ∧
    (∀ d ∈ bloodTypes, ∀ r ∈ bloodTypes,
      isBloodTypeCompatible (some d) (some r) = specCompatible d r) := by
  refine ⟨?_, ?_, ?_, ?_, ?_⟩
  · intro x; cases x <;> rfl
  · intro x; cases x <;> rfl
  · intro d r hd
    by_cases hde : d = ""
    · simp [isBloodTypeCompatible, hde]
    · by_cases hre : r = ""
      · simp [isBloodTypeCompatible, hde, hre]
      · rcases hcase : bloodTypeCompatibility r with _ | l
        · simp [isBloodTypeCompatible, hde, hre, hcase]
        · have hdl : d ∉ l := fun hmem => hd (bloodTypeCompatibility_subset hcase d hmem)
          simp [isBloodTypeCompatible, hde, hre, hcase, hdl]
  · intro d r hr
    have hnone := bloodTypeCompatibility_unknown hr
    by_cases hde : d = "" <;> by_cases hre : r = "" <;>
      simp [isBloodTypeCompatible, hde, hre, hnone]
  · decide

/-- Witness for C5 at the spec's example pair: donor O− into recipient AB+. -/
theorem isBloodTypeCompatible_full_spec_witness :
    "O-" ∈ bloodTypes ∧ "AB+" ∈ bloodTypes ∧
      isBloodTypeCompatible (some "O-") (some "AB+") = specCompatible "O-" "AB+" :=
  ⟨by decide, by decide,
    isBloodTypeCompatible_full_spec.2.2.2.2 "O-" (by decide) "AB+" (by decide)⟩

/-- The chart is reflexive on the eight literal blood types. -/
lemma isBloodTypeCompatible_self {t : String} (h : t ∈ bloodTypes) :
    isBloodTypeCompatible (some t) (some t) = true := by
  fin_cases h <;> decide

/-- C10: compatibility is reflexive on the eight literal types; hence every
pipeline record flagged as an exact blood-type match is also flagged
compatible, and the comparator never ranks a blood-type-incompatible record
strictly before a compatible one. -/
theorem exact_implies_compatible :
    (∀ t ∈ bloodTypes, isBloodTypeCompatible (some t) (some t) = true) ∧
    (∀ (donor : Donor) (dPHM : ℝ) (rcp : Recipient) (res : ResultRec),
      donor.bloodType ∈ bloodTypes →
      buildResult donor dPHM rcp = .ok res →
      res.keys.exactBloodTypeMatch = true →
      res.keys.bloodTypeMatch = true) ∧
    (∀ a b : MatchRec ℚ, a.bloodTypeMatch = false → b.bloodTypeMatch = true →
      0 < matchCompare a b) := by
  refine ⟨fun t ht => isBloodTypeCompatible_self ht, ?_, ?_⟩
  · intro donor dPHM rcp res hbt hok hex
    rcases hg : rcp.gender with _ | g
    · simp [buildResult, hg] at hok
    · simp only [buildResult, hg, Except.ok.injEq] at hok
      subst hok
      have hbtEq : rcp.bloodType = some donor.bloodType := by simpa using hex
      simpa [hbtEq] using isBloodTypeCompatible_self hbt
  · intro a b hab hbb
    simp [matchCompare, hab, hbb]

/-- Witness for C10: reflexivity at A+, and the comparator stage at two
concrete records. -/
theorem exact_implies_compatible_witness :
    ("A+" ∈ bloodTypes ∧ isBloodTypeCompatible (some "A+") (some "A+") = true) ∧
      0 < matchCompare (⟨false, true, "Acceptable", 1⟩ : MatchRec ℚ)
        ⟨true, false, "Acceptable", 1⟩ :=
  ⟨⟨by decide, exact_implies_compatible.1 "A+" (by decide)⟩,
    exact_implies_compatible.2.2 ⟨false, true, "Acceptable", 1⟩
      ⟨true, false, "Acceptable", 1⟩ rfl rfl⟩

/-- If any recipient in the list lacks a gender, building the batch yields an
error (the first thrown `TypeError` escapes the map). -/
lemma buildAll_error (donor : Donor) (dPHM : ℝ) :
    ∀ (l : List Recipient), (∃ rcp ∈ l, rcp.gender = none) →
      ∃ e, buildAll donor dPHM l = Except.error e := by
  intro l
  induction l with
  | nil => rintro ⟨r, hr, _⟩; cases hr
  | cons x xs ih =>
    rintro ⟨r, hr, hg⟩
    rcases hx : x.gender with _ | g
    · exact ⟨"TypeError: recipient gender is undefined", by
        simp [buildAll, buildResult, hx, Bind.bind, Except.bind]⟩
    · have hr' : ∃ rcp ∈ xs, rcp.gender = none := by
        rcases List.mem_cons.mp hr with rfl | hmem
        · rw [hg] at hx; cases hx
        · exact ⟨r, hmem, hg⟩
      obtain ⟨e, he⟩ := ih hr'
      exact ⟨e, by simp [buildAll, buildResult, hx, he, Bind.bind, Except.bind]⟩

/-- A concrete, completely filled-in donor. -/
def donorEx : Donor :=
  { name := "D", gender := "male", age := 45, height := 180, weight := 80,
    bloodType := "O-" }

/-- A concrete well-formed recipient row. -/
def recipGood : Recipient :=
  { id := "1", name := "Alice", gender := some "female", age := 50, height := 165,
    weight := 65, bloodType := some "A+" }

/-- A concrete malformed recipient row: the gender cell is absent. -/
def recipBad : Recipient :=
  { id := "2", name := "Bob", gender := none, age := 40, height := 170,
    weight := 70, bloodType := some "B+" }

/-- C7 counterexample: one malformed recipient (absent gender) aborts the
whole run — `handleCalculateMatches` returns an error and no record at all for
the well-formed recipient in the same batch, instead of skipping the bad row
and reporting it per-record. -/
theorem handleCalculateMatches_aborts_cex :
    handleCalculateMatches donorEx [recipGood, recipBad] =
      Except.error "TypeError: recipient gender is undefined" := by
  simp [handleCalculateMatches, buildAll, buildResult, donorEx,
    recipGood, recipBad, Bind.bind, Except.bind]

/-- C7 amended: a malformed recipient record (absent gender) is not skipped
and reported per-record: the `TypeError` thrown while building its record is
caught only by the run-level handler, so the entire matching run aborts and no
match records are returned for any recipient of the batch. -/
theorem handleCalculateMatches_aborts (donor : Donor) (recipients : List Recipient)
    (h : ∃ rcp ∈ recipients, rcp.gender = none) :
    ∃ e, handleCalculateMatches donor recipients = Except.error e := by
  obtain ⟨e, he⟩ := buildAll_error donor
    (calculatePHM donor.gender (donor.age : ℝ) (donor.height : ℝ) (donor.weight : ℝ))
    recipients h
  exact ⟨e, by simp [handleCalculateMatches, he, Bind.bind, Except.bind]⟩

/-- Witness for the amended C7 at a concrete donor and batch. -/
theorem handleCalculateMatches_aborts_witness :
    (∃ rcp ∈ [recipGood, recipBad], rcp.gender = none) ∧
      ∃ e, handleCalculateMatches donorEx [recipGood, recipBad] = Except.error e :=
  ⟨⟨recipBad, by simp, rfl⟩,
    handleCalculateMatches_aborts donorEx [recipGood, recipBad] ⟨recipBad, by simp, rfl⟩⟩

/-- Wellformed match records: the risk level is one of the two strings the
pipeline's `determineRiskLevel` can produce. -/
def WFRisk (r : MatchRec ℚ) : Prop :=
  r.riskLevel = "Acceptable" ∨ r.riskLevel = "High Risk"

/-- The three discrete comparator stages packed into one number, most
significant stage first. -/
def sortKey (r : MatchRec ℚ) : ℕ :=
  (if r.bloodTypeMatch then 0 else 4) + (if r.exactBloodTypeMatch then 0 else 2) +
    (if r.riskLevel = "Acceptable" then 0 else 1)

/-- On wellformed records the comparator is non-positive exactly under the
lexicographic order of the packed key and the ratio distance. -/
lemma matchCompare_nonpos_iff (a b : MatchRec ℚ) (ha : WFRisk a) (hb : WFRisk b) :
    matchCompare a b ≤ 0 ↔
      (sortKey a < sortKey b ∨
        (sortKey a = sortKey b ∧ |a.phmRatioVal - 1| ≤ |b.phmRatioVal - 1|)) := by
  obtain ⟨b1, e1, r1, q1⟩ := a
  obtain ⟨b2, e2, r2, q2⟩ := b
  dsimp only [WFRisk] at ha hb
  rcases ha with h | h <;> rcases hb with h' | h' <;> subst h <;> subst h' <;>
    cases b1 <;> cases b2 <;> cases e1 <;> cases e2 <;>
      simp [matchCompare, sortKey, sub_nonpos] <;> norm_num

/-- The comparator's `≤ 0` relation is transitive on wellformed records. -/
lemma matchCompare_le_trans {a b c : MatchRec ℚ} (ha : WFRisk a) (hb : WFRisk b)
    (hc : WFRisk c) (h1 : matchCompare a b ≤ 0) (h2 : matchCompare b c ≤ 0) :
    matchCompare a c ≤ 0 := by
  rw [matchCompare_nonpos_iff a b ha hb] at h1
  rw [matchCompare_nonpos_iff b c hb hc] at h2
  rw [matchCompare_nonpos_iff a c ha hc]
  rcases h1 with h1 | ⟨h1, h1'⟩ <;> rcases h2 with h2 | ⟨h2, h2'⟩
  · exact Or.inl (h1.trans h2)
  · exact Or.inl (h1.trans_eq h2)
  · exact Or.inl (h1.trans_lt h2)
  · exact Or.inr ⟨h1.trans h2, h1'.trans h2'⟩

/-- The comparator's `≤ 0` relation is total on wellformed records. -/
lemma matchCompare_le_total (a b : MatchRec ℚ) (ha : WFRisk a) (hb : WFRisk b) :
    matchCompare a b ≤ 0 ∨ matchCompare b a ≤ 0 := by
  rw [matchCompare_nonpos_iff a b ha hb, matchCompare_nonpos_iff b a hb ha]
  rcases lt_trichotomy (sortKey a) (sortKey b) with h | h | h
  · exact Or.inl (Or.inl h)
  · rcases le_total |a.phmRatioVal - 1| |b.phmRatioVal - 1| with hq | hq
    · exact Or.inl (Or.inr ⟨h, hq⟩)
    · exact Or.inr (Or.inr ⟨h.symm, hq⟩)
  · exact Or.inr (Or.inl h)

/-- The comparator's `≤`-relation restricted to wellformed records. -/
def wfLE (x y : {r : MatchRec ℚ // WFRisk r}) : Bool :=
  decide (matchCompare x.1 y.1 ≤ 0)

/-- A singleton sublist survives `attachWith`. -/
lemma singleton_sublist_attachWith {α : Type} {P : α → Prop} (b : α) (hb : P b) :
    ∀ (l : List α) (H : ∀ x ∈ l, P x),
      [b].Sublist l → List.Sublist [⟨b, hb⟩] (l.attachWith P H)
  | [], _, h => nomatch h
  | x :: t, H, h => by
    rw [List.attachWith_cons]
    cases h with
    | cons _a h' => exact List.Sublist.cons _ (singleton_sublist_attachWith b hb t _ h')
    | cons₂ _a h' => exact List.Sublist.cons₂ _ (List.nil_sublist _)

/-- A two-element sublist survives `attachWith`. -/
lemma pair_sublist_attachWith {α : Type} {P : α → Prop} (a b : α) (ha : P a) (hb : P b) :
    ∀ (l : List α) (H : ∀ x ∈ l, P x),
      [a, b].Sublist l → List.Sublist [⟨a, ha⟩, ⟨b, hb⟩] (l.attachWith P H)
  | [], _, h => nomatch h
  | x :: t, H, h => by
    rw [List.attachWith_cons]
    cases h with
    | cons _a h' => exact List.Sublist.cons _ (pair_sublist_attachWith a b ha hb t _ h')
    | cons₂ _a h' => exact List.Sublist.cons₂ _ (singleton_sublist_attachWith b hb t _ h')

/-- C8: the ranking is stable — for every input list of pipeline-wellformed
records, two records that agree on all four sort keys keep their relative
input order in the ranked output. -/
theorem rankMatches_stable (l : List (MatchRec ℚ)) (a b : MatchRec ℚ)
    (hl : ∀ r ∈ l, WFRisk r)
    (h1 : a.bloodTypeMatch = b.bloodTypeMatch)
    (h2 : a.exactBloodTypeMatch = b.exactBloodTypeMatch)
    (h3 : a.riskLevel = b.riskLevel)
    (h4 : |a.phmRatioVal - 1| = |b.phmRatioVal - 1|)
    (hab : [a, b].Sublist l) :
    [a, b].Sublist (rankMatches l) := by
  have hwa : WFRisk a := hl a (hab.subset (by simp))
  have hwb : WFRisk b := hl b (hab.subset (by simp))
  have trans' : ∀ x y z, wfLE x y → wfLE y z → wfLE x z := by
    intro x y z hxy hyz
    simp only [wfLE, decide_eq_true_eq] at hxy hyz ⊢
    exact matchCompare_le_trans x.2 y.2 z.2 hxy hyz
  have total' : ∀ x y, wfLE x y || wfLE y x := by
    intro x y
    simp only [wfLE, Bool.or_eq_true, decide_eq_true_eq]
    exact matchCompare_le_total x.1 y.1 x.2 y.2
  have hle_ab : wfLE ⟨a, hwa⟩ ⟨b, hwb⟩ := by
    simp only [wfLE, decide_eq_true_eq]
    simp [matchCompare, h1, h2, h3, h4]
  have hsub : List.Sublist [⟨a, hwa⟩, ⟨b, hwb⟩] (l.attachWith WFRisk hl) :=
    pair_sublist_attachWith a b hwa hwb l hl hab
  have hstable := List.pair_sublist_mergeSort trans' total' hle_ab hsub
  have hmapped := hstable.map Subtype.val
  have hmerge : ((l.attachWith WFRisk hl).mergeSort wfLE).map Subtype.val
      = l.mergeSort fun x y => decide (matchCompare x y ≤ 0) := by
    have h := @List.map_mergeSort _ _ wfLE (fun x y => decide (matchCompare x y ≤ 0))
      Subtype.val (l.attachWith WFRisk hl) (fun x _ y _ => rfl)
    rw [List.attachWith_map_subtype_val] at h
    exact h
  rw [hmerge] at hmapped
  simpa [rankMatches] using hmapped

/-- A concrete wellformed record with PHM ratio 0. -/
def recA : MatchRec ℚ := ⟨true, true, "Acceptable", 0⟩

/-- A concrete wellformed record with PHM ratio 2 — all four sort keys agree
with those of `recA`. -/
def recB : MatchRec ℚ := ⟨true, true, "Acceptable", 2⟩

/-- Witness for C8 at two distinct records that tie on every sort key. -/
theorem rankMatches_stable_witness :
    (∀ r ∈ [recA, recB], WFRisk r) ∧
      |recA.phmRatioVal - 1| = |recB.phmRatioVal - 1| ∧
      List.Sublist [recA, recB] (rankMatches [recA, recB]) := by
  have hwf : ∀ r ∈ [recA, recB], WFRisk r := by
    intro r hr
    rcases List.mem_cons.mp hr with rfl | hr
    · exact Or.inl rfl
    · rcases List.mem_cons.mp hr with rfl | hr
      · exact Or.inl rfl
      · cases hr
  refine ⟨hwf, by norm_num [recA, recB], ?_⟩
  exact rankMatches_stable [recA, recB] recA recB hwf rfl rfl rfl
    (by norm_num [recA, recB]) (List.Sublist.refl _)

end HeartMatcher
